import Mathlib

/-!
Verification of the checkpoint & timeline engine of the claudia repository.

The pure logic of the Tauri command handlers in
`src-tauri/src/commands/claude.rs` (checkpoint diffing, strategy-string
dispatch, transcript-line tracking, and the control flow of the
create/restore/fork/cleanup commands) is embedded as executable Lean
functions.  The internals of the `crate::checkpoint` module (manager,
storage, strategies) are not part of the provided sources; where a claim
depends on them they are modelled from the specification, and each such
definition is marked `Modelled from the spec:` in its doc comment.
-/

namespace Claudia

/-- Checkpoint strategy enumeration (`CheckpointStrategy` in `crate::checkpoint`):
a closed set of four variants. -/
inductive CheckpointStrategy where
  | Manual
  | PerPrompt
  | PerToolUse
  | Smart
deriving DecidableEq

/-- Checkpoint metadata; the command handlers only read `total_tokens`
(a `u64`, modelled as a `Nat` kept below `2^64` by the callers). -/
structure CheckpointMetadata where
  total_tokens : Nat
  file_count : Nat
deriving DecidableEq

/-- A checkpoint record (`Checkpoint` in `crate::checkpoint`). -/
structure Checkpoint where
  id : String
  session_id : String
  project_id : String
  parent_id : Option String
  created_at : Nat
  description : Option String
  message_index : Nat
  metadata : CheckpointMetadata
deriving DecidableEq

/-- A snapshot of one file inside a checkpoint (`FileSnapshot`). -/
structure FileSnapshot where
  file_path : String
  content : String
  hash : String
  size : Nat
deriving DecidableEq

/-- Per-file entry of a checkpoint diff (`FileDiff`). -/
structure FileDiff where
  path : String
  additions : Nat
  deletions : Nat
  diff_content : Option String
deriving DecidableEq

/-- Result of diffing two checkpoints (`CheckpointDiff`). -/
structure CheckpointDiff where
  from_checkpoint_id : String
  to_checkpoint_id : String
  modified_files : List FileDiff
  added_files : List String
  deleted_files : List String
  token_delta : Int
deriving DecidableEq

/-- Result of a checkpoint operation (`CheckpointResult`). -/
structure CheckpointResult where
  checkpoint : Checkpoint
  files_processed : Nat
  warnings : List String
deriving DecidableEq

/-- Per-session timeline state (`SessionTimeline`). -/
structure SessionTimeline where
  session_id : String
  current_checkpoint_id : Option String
  total_checkpoints : Nat
  auto_checkpoint_enabled : Bool
  checkpoint_strategy : CheckpointStrategy
deriving DecidableEq

/-- Number of lines of a string as computed by Rust `str::lines().count()`:
lines are separated by `\n`, and a final segment not closed by a terminator
still counts as a line (so the count is the number of `\n` characters, plus
one when the string is nonempty and does not end in `\n`). -/
def linesCount (s : String) : Nat :=
  s.data.count '\n' +
    (if s.data ≠ [] ∧ s.data.getLast? ≠ some '\n' then 1 else 0)

/-- Value of a `u64` (given as a natural number) after a Rust `as i64` cast:
reduce modulo `2^64` and reinterpret in two's complement. -/
def u64ToI64 (n : Nat) : Int :=
  if n % 2 ^ 64 < 2 ^ 63 then ((n % 2 ^ 64 : Nat) : Int)
  else ((n % 2 ^ 64 : Nat) : Int) - 2 ^ 64

/-- Wrap an integer into the signed 64-bit range, the release-mode result of
`i64` arithmetic. -/
def i64Wrap (z : Int) : Int :=
  (z + 2 ^ 63) % 2 ^ 64 - 2 ^ 63

/-- Insert one snapshot into a path-keyed map held as a list, overwriting an
existing entry with the same path (the effect of `HashMap::insert`). -/
def insertSnap (m : List FileSnapshot) (f : FileSnapshot) : List FileSnapshot :=
  if m.any (fun g => g.file_path == f.file_path) then
    m.map (fun g => if g.file_path == f.file_path then f else g)
  else
    m ++ [f]

/-- Build the path-keyed file map of `get_checkpoint_diff` from a list of
snapshots (`for file in &files \x7b map.insert(file.file_path.clone(), file) \x7d`). -/
def buildMap (files : List FileSnapshot) : List FileSnapshot :=
  files.foldl insertSnap []

/-- Look a path up in a path-keyed map (`HashMap::get`). -/
def findSnap (m : List FileSnapshot) (p : String) : Option FileSnapshot :=
  m.find? (fun g => g.file_path == p)

/-- The diff computation of `get_checkpoint_diff` in
`src-tauri/src/commands/claude.rs`, applied to the two loaded checkpoints
and their file sets: one pass over the `from` map classifying modified and
deleted paths, one pass over the `to` map collecting added paths, and a
token delta computed by `u64 as i64` casts and signed 64-bit subtraction. -/
def computeCheckpointDiff (fromCk toCk : Checkpoint)
    (fromFiles toFiles : List FileSnapshot)
    (fromId toId : String) : CheckpointDiff :=
  let fromMap := buildMap fromFiles
  let toMap := buildMap toFiles
  let modified := fromMap.filterMap (fun f =>
    match findSnap toMap f.file_path with
    | some t =>
        if f.hash ≠ t.hash then
          some { path := f.file_path, additions := linesCount t.content,
                 deletions := linesCount f.content, diff_content := none }
        else none
    | none => none)
  let deleted := fromMap.filterMap (fun f =>
    match findSnap toMap f.file_path with
    | some _ => none
    | none => some f.file_path)
  let added := toMap.filterMap (fun t =>
    match findSnap fromMap t.file_path with
    | some _ => none
    | none => some t.file_path)
  { from_checkpoint_id := fromId
    to_checkpoint_id := toId
    modified_files := modified
    added_files := added
    deleted_files := deleted
    token_delta :=
      i64Wrap (u64ToI64 toCk.metadata.total_tokens - u64ToI64 fromCk.metadata.total_tokens) }

/-- A checkpoint as persisted by Checkpoint Storage: the record together with
its complete file snapshot set and the captured transcript bytes. -/
structure StoredCheckpoint where
  ckpt : Checkpoint
  files : List FileSnapshot
  transcript : String
deriving DecidableEq

/-- Modelled from the spec: the persistent Checkpoint Storage of §4.2 — a
store of checkpoint records (held in creation order) and a content-addressed
blob pool keyed by hash. -/
structure CheckpointStorage where
  checkpoints : List StoredCheckpoint
  blobs : List (String × String)
deriving DecidableEq

/-- Find a stored checkpoint by project id, session id and checkpoint id. -/
def findStoredCheckpoint (s : CheckpointStorage) (pid sid cid : String) :
    Option StoredCheckpoint :=
  s.checkpoints.find? (fun c =>
    c.ckpt.project_id == pid && c.ckpt.session_id == sid && c.ckpt.id == cid)

/-- Modelled from the spec: `CheckpointStorage::load_checkpoint` of §4.2
(absent from the provided sources) — fails NotFound if absent, otherwise
returns the record, its files and its transcript bytes. -/
def load_checkpoint (s : CheckpointStorage) (pid sid cid : String) :
    Except String (Checkpoint × List FileSnapshot × String) :=
  match findStoredCheckpoint s pid sid cid with
  | none => Except.error ("Checkpoint not found: " ++ cid)
  | some stored => Except.ok (stored.ckpt, stored.files, stored.transcript)

/-- Retrieve a blob from the content store by hash. -/
def getBlob (s : CheckpointStorage) (h : String) : Option String :=
  (s.blobs.find? (fun b => b.1 == h)).map (fun b => b.2)

/-- The checkpoints of one session, in storage (creation) order. -/
def sessionCheckpoints (s : CheckpointStorage) (pid sid : String) :
    List StoredCheckpoint :=
  s.checkpoints.filter (fun c => c.ckpt.project_id == pid && c.ckpt.session_id == sid)

/-- Modelled from the spec: `CheckpointStorage::cleanup_old_checkpoints` of
§4.2 (absent from the provided sources) — retains the `keep_count`
most-recently-created checkpoints of the session, deletes the rest and their
records, returns the number removed, is a no-op when `keep_count ≥ total`,
and sweeps only blobs referenced by no remaining checkpoint
(union-then-sweep before blob removal). -/
def cleanup_old_checkpoints (s : CheckpointStorage) (pid sid : String)
    (keep_count : Nat) : Nat × CheckpointStorage :=
  let sess := sessionCheckpoints s pid sid
  if sess.length ≤ keep_count then (0, s)
  else
    let removeCount := sess.length - keep_count
    let removedIds := (sess.take removeCount).map (fun c => c.ckpt.id)
    let kept := s.checkpoints.filter (fun c => !(removedIds.contains c.ckpt.id))
    let blobsSwept := s.blobs.filter (fun b =>
      kept.any (fun c => c.files.any (fun f => f.hash == b.1)))
    (removeCount, { checkpoints := kept, blobs := blobsSwept })

/-- Modelled from the spec: a Checkpoint Manager entry of §4.4/§4.5 — the
per-session orchestrator's externally visible state: its project binding and
its session Timeline. -/
structure Manager where
  project_id : String
  project_path : String
  timeline : SessionTimeline
deriving DecidableEq

/-- The process state seen by the command handlers: the Manager Registry, the
session transcript files (keyed by project id and session id), the working
tree, the Checkpoint Storage, and counters supplying fresh ids and
timestamps. -/
structure AppState where
  registry : List (String × Manager)
  sessionFiles : List ((String × String) × String)
  workingTree : List (String × String)
  storage : CheckpointStorage
  nextId : Nat
  clock : Nat
deriving DecidableEq

/-- Look up the active Manager of a session id in the registry. -/
def findManager (st : AppState) (sid : String) : Option Manager :=
  (st.registry.find? (fun e => e.1 == sid)).map (fun e => e.2)

/-- Modelled from the spec: `get_or_create_manager` of §4.5 — idempotent per
session id; a missing entry is created lazily with the initial Timeline of
§4.3 (no checkpoints, pointer `None`, strategy Manual, auto-checkpoint
disabled). -/
def get_or_create_manager (st : AppState) (sid pid ppath : String) :
    Manager × AppState :=
  match findManager st sid with
  | some mgr => (mgr, st)
  | none =>
      let mgr : Manager :=
        { project_id := pid, project_path := ppath
          timeline :=
            { session_id := sid, current_checkpoint_id := none
              total_checkpoints := 0, auto_checkpoint_enabled := false
              checkpoint_strategy := CheckpointStrategy.Manual } }
      (mgr, { st with registry := st.registry ++ [(sid, mgr)] })

/-- Read the visible conversation log `<session_id>.jsonl` of a session under
its project directory. -/
def readSessionFile (st : AppState) (pid sid : String) : Option String :=
  (st.sessionFiles.find? (fun e => e.1.1 == pid && e.1.2 == sid)).map (fun e => e.2)

/-- Overwrite (or create) the visible conversation log of a session, as
`fs::write`/`fs::copy` do. -/
def writeSessionFile (st : AppState) (pid sid content : String) : AppState :=
  { st with sessionFiles :=
      ((pid, sid), content) ::
        st.sessionFiles.filter (fun e => !(e.1.1 == pid && e.1.2 == sid)) }

/-- Replace the registered Manager of a session id, leaving other entries
unchanged. -/
def setManager (st : AppState) (sid : String) (mgr : Manager) : AppState :=
  { st with registry := st.registry.map (fun e => if e.1 == sid then (sid, mgr) else e) }

/-- Advance the Timeline pointer of a session's Manager. -/
def setTimelinePointer (st : AppState) (sid : String) (cid : Option String) : AppState :=
  { st with registry := st.registry.map (fun e =>
      if e.1 == sid then
        (e.1, { e.2 with timeline := { e.2.timeline with current_checkpoint_id := cid } })
      else e) }

/-- Write a list of file snapshots back into the working tree, overwriting
path by path (extraneous files are not deleted). -/
def writeFilesToTree (tree : List (String × String)) :
    List FileSnapshot → List (String × String)
  | [] => tree
  | f :: rest =>
      writeFilesToTree
        ((f.file_path, f.content) :: tree.filter (fun e => !(e.1 == f.file_path))) rest

/-- Modelled from the spec: `CheckpointManager::restore_checkpoint` of §4.4
(absent from the provided sources) — loads the target's files and writes them
back to the working tree, advances the Timeline pointer, and returns the
Checkpoint so the caller can rewrite the visible conversation log. -/
def mgrRestoreCheckpoint (st : AppState) (sid cid : String) :
    Except String (CheckpointResult × AppState) :=
  match findManager st sid with
  | none => Except.error ("No manager for session: " ++ sid)
  | some mgr =>
      match findStoredCheckpoint st.storage mgr.project_id sid cid with
      | none => Except.error ("Checkpoint not found: " ++ cid)
      | some stored =>
          let st1 := { st with workingTree := writeFilesToTree st.workingTree stored.files }
          let st2 := setTimelinePointer st1 sid (some cid)
          Except.ok
            ({ checkpoint := stored.ckpt, files_processed := stored.files.length
               warnings := [] }, st2)

/-- Modelled from the spec: `CheckpointManager::fork_from_checkpoint` of §4.4
(absent from the provided sources) — creates a new Checkpoint whose parent is
`checkpoint_id` under the manager's (new) session id, rooted at the forked
checkpoint's snapshot, and advances the new session's Timeline there. -/
def mgrForkFromCheckpoint (st : AppState) (sid cid : String)
    (description : Option String) : Except String (CheckpointResult × AppState) :=
  match findManager st sid with
  | none => Except.error ("No manager for session: " ++ sid)
  | some mgr =>
      match st.storage.checkpoints.find? (fun c => c.ckpt.id == cid) with
      | none => Except.error ("Checkpoint not found: " ++ cid)
      | some stored =>
          let newCk : Checkpoint :=
            { id := "ck-" ++ toString st.nextId
              session_id := sid
              project_id := mgr.project_id
              parent_id := some cid
              created_at := st.clock
              description := description
              message_index := stored.ckpt.message_index
              metadata := stored.ckpt.metadata }
          let st1 :=
            { st with
              storage :=
                { st.storage with
                  checkpoints :=
                    st.storage.checkpoints ++
                      [{ ckpt := newCk, files := stored.files
                         transcript := stored.transcript }] }
              nextId := st.nextId + 1
              clock := st.clock + 1 }
          let st2 := setTimelinePointer st1 sid (some newCk.id)
          Except.ok
            ({ checkpoint := newCk, files_processed := stored.files.length
               warnings := [] }, st2)

/-- The `restore_checkpoint` command handler of
`src-tauri/src/commands/claude.rs`: obtain the session's manager, delegate
the restore, then reload the checkpoint's data from storage and overwrite the
session's visible conversation log with its transcript bytes. -/
def restore_checkpoint_cmd (st : AppState) (cid sid pid ppath : String) :
    Except String (CheckpointResult × AppState) :=
  let st1 := (get_or_create_manager st sid pid ppath).2
  match mgrRestoreCheckpoint st1 sid cid with
  | Except.error e => Except.error ("Failed to restore checkpoint: " ++ e)
  | Except.ok (result, st2) =>
      match load_checkpoint st2.storage result.checkpoint.project_id sid cid with
      | Except.error e => Except.error ("Failed to load checkpoint data: " ++ e)
      | Except.ok (_, _, messages) =>
          Except.ok (result, writeSessionFile st2 result.checkpoint.project_id sid messages)

/-- The `fork_from_checkpoint` command handler of
`src-tauri/src/commands/claude.rs`: copy the source session's conversation
log file to the new session id (when it exists), register a manager for the
new session, and delegate the fork to it. -/
def fork_from_checkpoint_cmd (st : AppState) (cid sid pid ppath nsid : String)
    (description : Option String) : Except String (CheckpointResult × AppState) :=
  let st1 :=
    match readSessionFile st pid sid with
    | some content => writeSessionFile st pid nsid content
    | none => st
  let st2 := (get_or_create_manager st1 nsid pid ppath).2
  match mgrForkFromCheckpoint st2 nsid cid description with
  | Except.error e => Except.error ("Failed to fork checkpoint: " ++ e)
  | Except.ok r => Except.ok r

/-- The strategy-string dispatch of the `update_checkpoint_settings` command
handler: exactly four strings are accepted; anything else is an error. -/
def parseStrategy (s : String) : Except String CheckpointStrategy :=
  if s = "manual" then Except.ok CheckpointStrategy.Manual
  else if s = "per_prompt" then Except.ok CheckpointStrategy.PerPrompt
  else if s = "per_tool_use" then Except.ok CheckpointStrategy.PerToolUse
  else if s = "smart" then Except.ok CheckpointStrategy.Smart
  else Except.error ("Invalid checkpoint strategy: " ++ s)

/-- Modelled from the spec: `update_settings(auto_checkpoint_enabled,
strategy)` of §4.3 (absent from the provided sources) — rewrites the two
settings fields of the session's Timeline. -/
def mgrUpdateSettings (st : AppState) (sid : String) (auto : Bool)
    (strat : CheckpointStrategy) : AppState :=
  { st with registry := st.registry.map (fun e =>
      if e.1 == sid then
        (e.1, { e.2 with timeline :=
          { e.2.timeline with auto_checkpoint_enabled := auto
                              checkpoint_strategy := strat } })
      else e) }

/-- The `update_checkpoint_settings` command handler of
`src-tauri/src/commands/claude.rs`: parse the strategy string first and
return its error before any manager is obtained or updated; on success,
obtain the manager and update its settings. -/
def update_checkpoint_settings_cmd (st : AppState) (sid pid ppath : String)
    (auto : Bool) (strategyStr : String) : Except String Unit × AppState :=
  match parseStrategy strategyStr with
  | Except.error e => (Except.error e, st)
  | Except.ok strat =>
      let st1 := (get_or_create_manager st sid pid ppath).2
      (Except.ok (), mgrUpdateSettings st1 sid auto strat)

/-- Role of a transcript message, as carried by the structured
transcript-line records of §6. -/
inductive MessageRole where
  | user
  | assistant
  | system
  | other
deriving DecidableEq

/-- Modelled from the spec: the fields of a candidate transcript message that
the auto-checkpoint strategies of §4.4 inspect — its role and whether it
reports completion of a tool invocation that mutated the file system. -/
structure TrackedMessage where
  role : MessageRole
  fileMutatingToolCompleted : Bool
deriving DecidableEq

/-- Modelled from the spec: `should_auto_checkpoint(candidate)` of §4.4
(absent from the provided sources) — Manual: always false; PerPrompt: true
iff the candidate is a new user-role message and at least one buffered change
occurred since the last checkpoint; PerToolUse: true iff the candidate
reports completion of a file-mutating tool invocation; Smart: true if the
buffered-message count, touched-file count, or elapsed time crosses its
threshold. -/
def should_auto_checkpoint (strat : CheckpointStrategy)
    (bufferedCount filesTouched elapsed smartN smartM smartT : Nat)
    (candidate : TrackedMessage) : Bool :=
  match strat with
  | CheckpointStrategy.Manual => false
  | CheckpointStrategy.PerPrompt =>
      (candidate.role == MessageRole.user) && decide (1 ≤ bufferedCount)
  | CheckpointStrategy.PerToolUse => candidate.fileMutatingToolCompleted
  | CheckpointStrategy.Smart =>
      decide (smartN ≤ bufferedCount) || decide (smartM < filesTouched) ||
        decide (smartT < elapsed)

/-- Feed a sequence of candidate messages through the Manager: each candidate
is checked by `should_auto_checkpoint` against the buffer accumulated so far
and then handed to `track_message`, which buffers it. -/
def runAuto (strat : CheckpointStrategy)
    (bufferedCount filesTouched elapsed smartN smartM smartT : Nat) :
    List TrackedMessage → List Bool
  | [] => []
  | m :: rest =>
      should_auto_checkpoint strat bufferedCount filesTouched elapsed
          smartN smartM smartT m ::
        runAuto strat (bufferedCount + 1) filesTouched elapsed smartN smartM smartT rest

/-- The transcript-tracking loop of the `create_checkpoint` command handler:
walk the session file's lines with a running `line_count`, and when
`message_index` is `Some index`, stop before any line with
`line_count > index`; every visited line is tracked into the manager's
buffer. -/
def trackLoop (messageIndex : Option Nat) : Nat → List String → List String
  | _, [] => []
  | lineCount, l :: rest =>
      match messageIndex with
      | some index =>
          if lineCount > index then []
          else l :: trackLoop messageIndex (lineCount + 1) rest
      | none => l :: trackLoop none (lineCount + 1) rest

/-- The lines of the session transcript file that `create_checkpoint` tracks
into the manager's buffer before creating the checkpoint. -/
def trackedMessages (messageIndex : Option Nat) (ls : List String) : List String :=
  trackLoop messageIndex 0 ls

/-! ### Concrete fixtures used by witnesses and concrete claims -/

/-- A from-checkpoint fixture with 10 total tokens. -/
def ckC1A : Checkpoint :=
  { id := "a", session_id := "s", project_id := "p", parent_id := none,
    created_at := 0, description := none, message_index := 0,
    metadata := { total_tokens := 10, file_count := 2 } }

/-- A to-checkpoint fixture with 13 total tokens. -/
def ckC1B : Checkpoint :=
  { id := "b", session_id := "s", project_id := "p", parent_id := some "a",
    created_at := 1, description := none, message_index := 1,
    metadata := { total_tokens := 13, file_count := 2 } }

/-- File set A of the diff-correctness example: x ↦ "1", y ↦ "2", hashes
equal to a digest of the content. -/
def filesC1A : List FileSnapshot :=
  [ { file_path := "x", content := "1", hash := "d1", size := 1 },
    { file_path := "y", content := "2", hash := "d2", size := 1 } ]

/-- File set B of the diff-correctness example: x ↦ "1", z ↦ "3". -/
def filesC1B : List FileSnapshot :=
  [ { file_path := "x", content := "1", hash := "d1", size := 1 },
    { file_path := "z", content := "3", hash := "d3", size := 1 } ]

/-- An empty process state. -/
def emptyState : AppState :=
  { registry := [], sessionFiles := [], workingTree := [],
    storage := { checkpoints := [], blobs := [] }, nextId := 0, clock := 0 }

/-! ### C1 -/

/-- C1: for loaded file sets A = \x7bx ↦ "1", y ↦ "2"\x7d and
B = \x7bx ↦ "1", z ↦ "3"\x7d with hash = digest(content), the diff of
`get_checkpoint_diff` reports exactly y deleted and z added, and x appears in
none of the three lists (its hashes are equal, so `modified_files` is empty). -/
theorem diff_concrete_sets :
    (computeCheckpointDiff ckC1A ckC1B filesC1A filesC1B "a" "b").deleted_files = ["y"] ∧
    (computeCheckpointDiff ckC1A ckC1B filesC1A filesC1B "a" "b").added_files = ["z"] ∧
    (computeCheckpointDiff ckC1A ckC1B filesC1A filesC1B "a" "b").modified_files = [] ∧
    ((computeCheckpointDiff ckC1A ckC1B filesC1A filesC1B "a" "b").modified_files.all
      (fun d => d.path ≠ "x")) = true ∧
    "x" ∉ (computeCheckpointDiff ckC1A ckC1B filesC1A filesC1B "a" "b").added_files ∧
    "x" ∉ (computeCheckpointDiff ckC1A ckC1B filesC1A filesC1B "a" "b").deleted_files := by
  decide

/-! ### C10 -/

/-- With an index bound `some i`, the tracking loop started at counter `c`
takes exactly the next `i + 1 - c` lines. -/
theorem trackLoop_some (i : Nat) :
    ∀ (ls : List String) (c : Nat), trackLoop (some i) c ls = ls.take (i + 1 - c) := by
  intro ls
  induction ls with
  | nil => intro c; simp [trackLoop]
  | cons l rest ih =>
      intro c
      by_cases hc : c > i
      · have h0 : i + 1 - c = 0 := by omega
        simp [trackLoop, hc, h0]
      · have h1 : i + 1 - c = (i + 1 - (c + 1)) + 1 := by omega
        simp [trackLoop, hc, ih (c + 1), h1]

/-- With no index bound, the tracking loop visits every line. -/
theorem trackLoop_none :
    ∀ (ls : List String) (c : Nat), trackLoop none c ls = ls := by
  intro ls
  induction ls with
  | nil => intro c; simp [trackLoop]
  | cons l rest ih => intro c; simp [trackLoop, ih (c + 1)]

/-- C10: with `message_index = Some i` the `create_checkpoint` handler tracks
exactly the transcript lines at indices 0 through i (`i + 1` lines, inclusive
of index i) into the manager's buffer and ignores all later lines; with
`message_index = None` it tracks every line. -/
theorem create_checkpoint_tracked_lines (i : Nat) (ls : List String) :
    trackedMessages (some i) ls = ls.take (i + 1) ∧
    trackedMessages none ls = ls := by
  constructor
  · simpa using trackLoop_some i ls 0
  · exact trackLoop_none ls 0

/-! ### C8 -/

/-- C8: under the PerPrompt strategy, `should_auto_checkpoint` returns true
iff the candidate is a new user-role message and at least one buffered change
occurred since the last checkpoint; feeding the candidate sequence
[assistant, assistant, user] into an empty buffer yields false, false, true. -/
theorem per_prompt_trigger :
    (∀ (b ft el n m t : Nat) (cand : TrackedMessage),
      should_auto_checkpoint CheckpointStrategy.PerPrompt b ft el n m t cand = true ↔
        cand.role = MessageRole.user ∧ 1 ≤ b) ∧
    runAuto CheckpointStrategy.PerPrompt 0 0 0 0 0 0
        [ { role := MessageRole.assistant, fileMutatingToolCompleted := false },
          { role := MessageRole.assistant, fileMutatingToolCompleted := false },
          { role := MessageRole.user, fileMutatingToolCompleted := false } ] =
      [false, false, true] := by
  constructor
  · intro b ft el n m t cand
    simp [should_auto_checkpoint]
  · decide

/-! ### C6 -/

/-- C6: the token delta of `get_checkpoint_diff` is the difference of the two
checkpoints' `total_tokens` computed in signed 64-bit arithmetic after `u64 as
i64` casts, and is the exact integer difference whenever both totals are below
`2^63`. -/
theorem token_delta_exact (fromCk toCk : Checkpoint)
    (ff tf : List FileSnapshot) (fid tid : String)
    (hfrom : fromCk.metadata.total_tokens < 2 ^ 63)
    (hto : toCk.metadata.total_tokens < 2 ^ 63) :
    (computeCheckpointDiff fromCk toCk ff tf fid tid).token_delta =
      (toCk.metadata.total_tokens : Int) - (fromCk.metadata.total_tokens : Int) := by
  have hf64 : fromCk.metadata.total_tokens % 2 ^ 64 = fromCk.metadata.total_tokens :=
    Nat.mod_eq_of_lt (by omega)
  have ht64 : toCk.metadata.total_tokens % 2 ^ 64 = toCk.metadata.total_tokens :=
    Nat.mod_eq_of_lt (by omega)
  simp only [computeCheckpointDiff, i64Wrap, u64ToI64, hf64, ht64]
  rw [if_pos (by exact_mod_cast hto), if_pos (by exact_mod_cast hfrom)]
  omega

/-- Witness for C6: at the concrete checkpoint fixtures the token delta is
exactly `13 - 10`. -/
theorem token_delta_exact_witness :
    (computeCheckpointDiff ckC1A ckC1B filesC1A filesC1B "a" "b").token_delta =
      ((13 : Nat) : Int) - ((10 : Nat) : Int) :=
  token_delta_exact ckC1A ckC1B filesC1A filesC1B "a" "b" (by decide) (by decide)

/-! ### C4 -/

/-- C4: the `update_checkpoint_settings` handler maps exactly the four
strategy strings to the four strategy variants; every other string yields the
invalid-strategy error, returned before any manager is obtained or updated, so
the process state is unchanged. -/
theorem update_settings_dispatch :
    parseStrategy "manual" = Except.ok CheckpointStrategy.Manual ∧
    parseStrategy "per_prompt" = Except.ok CheckpointStrategy.PerPrompt ∧
    parseStrategy "per_tool_use" = Except.ok CheckpointStrategy.PerToolUse ∧
    parseStrategy "smart" = Except.ok CheckpointStrategy.Smart ∧
    ∀ s, s ≠ "manual" → s ≠ "per_prompt" → s ≠ "per_tool_use" → s ≠ "smart" →
      parseStrategy s = Except.error ("Invalid checkpoint strategy: " ++ s) ∧
      ∀ (st : AppState) (sid pid ppath : String) (auto : Bool),
        update_checkpoint_settings_cmd st sid pid ppath auto s =
          (Except.error ("Invalid checkpoint strategy: " ++ s), st) := by
  refine ⟨by rfl, by rfl, by rfl, by rfl, ?_⟩
  intro s h1 h2 h3 h4
  have hp : parseStrategy s = Except.error ("Invalid checkpoint strategy: " ++ s) := by
    simp [parseStrategy, h1, h2, h3, h4]
  exact ⟨hp, fun st sid pid ppath auto => by
    simp [update_checkpoint_settings_cmd, hp]⟩

/-- Witness for C4: the string "bogus" is rejected with the invalid-strategy
error and the empty process state is returned unchanged. -/
theorem update_settings_dispatch_witness :
    update_checkpoint_settings_cmd emptyState "s1" "p1" "/pp" true "bogus" =
      (Except.error ("Invalid checkpoint strategy: " ++ "bogus"), emptyState) :=
  (update_settings_dispatch.2.2.2.2 "bogus" (by decide) (by decide) (by decide)
    (by decide)).2 emptyState "s1" "p1" "/pp" true

/-! ### Path-map lemmas for the diff computation -/

/-- A snapshot list has pairwise distinct paths (the spec invariant
`file_path` unique within a checkpoint). -/
abbrev pathsNodup (l : List FileSnapshot) : Prop :=
  (l.map (fun f => f.file_path)).Nodup

/-- Every entry of `insertSnap m f` comes from `m` or is `f` itself. -/
theorem mem_insertSnap {m : List FileSnapshot} {f g : FileSnapshot}
    (h : g ∈ insertSnap m f) : g ∈ m ∨ g = f := by
  unfold insertSnap at h
  by_cases ha : m.any (fun g => g.file_path == f.file_path)
  · rw [if_pos ha] at h
    rcases List.mem_map.mp h with ⟨x, hx, hxg⟩
    by_cases hp : x.file_path == f.file_path
    · right; rw [if_pos hp] at hxg; exact hxg.symm
    · left; rw [if_neg hp] at hxg; exact hxg ▸ hx
  · rw [if_neg ha] at h
    rcases List.mem_append.mp h with h | h
    · exact Or.inl h
    · exact Or.inr (List.mem_singleton.mp h)

/-- When some entry of `m` already has `f`'s path, the overwrite leaves the
path list of the map unchanged. -/
theorem insertSnap_map_path_of_any {m : List FileSnapshot} {f : FileSnapshot}
    (ha : m.any (fun g => g.file_path == f.file_path) = true) :
    (insertSnap m f).map (fun g => g.file_path) = m.map (fun g => g.file_path) := by
  unfold insertSnap
  rw [if_pos ha, List.map_map]
  refine List.map_congr_left ?_
  intro x hx
  by_cases hp : x.file_path = f.file_path
  · simp [Function.comp, hp]
  · simp [Function.comp, hp]

/-- The path set of `insertSnap m f`: the paths of `m`, plus `f`'s path. -/
theorem path_mem_insertSnap {m : List FileSnapshot} {f : FileSnapshot} {p : String} :
    (p ∈ (insertSnap m f).map (fun g => g.file_path)) ↔
      p ∈ m.map (fun g => g.file_path) ∨ f.file_path = p := by
  by_cases ha : m.any (fun g => g.file_path == f.file_path)
  · rw [insertSnap_map_path_of_any ha]
    rcases List.any_eq_true.mp ha with ⟨w, hw, hwp⟩
    have hwp' : w.file_path = f.file_path := by simpa using hwp
    constructor
    · exact Or.inl
    · intro h
      rcases h with h | h
      · exact h
      · exact List.mem_map.mpr ⟨w, hw, by rw [hwp', h]⟩
  · unfold insertSnap
    rw [if_neg ha, List.map_append]
    simp [eq_comm]

/-- `insertSnap` preserves path distinctness. -/
theorem pathsNodup_insertSnap {m : List FileSnapshot} {f : FileSnapshot}
    (h : pathsNodup m) : pathsNodup (insertSnap m f) := by
  unfold insertSnap pathsNodup
  by_cases ha : m.any (fun g => g.file_path == f.file_path)
  · rw [if_pos ha, List.map_map]
    have heq : m.map ((fun g => g.file_path) ∘
        (fun g => if g.file_path == f.file_path then f else g)) =
        m.map (fun g => g.file_path) := by
      refine List.map_congr_left ?_
      intro x hx
      by_cases hp : x.file_path == f.file_path
      · simp only [Function.comp]; rw [if_pos hp]; exact (eq_of_beq hp).symm
      · simp only [Function.comp]; rw [if_neg hp]
    rw [heq]; exact h
  · rw [if_neg ha, List.map_append]
    have hnf : f.file_path ∉ m.map (fun g => g.file_path) := by
      intro hc
      rcases List.mem_map.mp hc with ⟨x, hx, hxp⟩
      exact ha (List.any_eq_true.mpr ⟨x, hx, by simpa using hxp⟩)
    refine List.nodup_append.mpr ⟨h, List.nodup_singleton _, ?_⟩
    intro a ha1 ha2
    rw [List.mem_singleton.mp ha2] at ha1
    exact hnf ha1

/-- Every entry of the built map is one of the inserted snapshots. -/
theorem mem_buildMap_aux {g : FileSnapshot} :
    ∀ (files m : List FileSnapshot), g ∈ files.foldl insertSnap m →
      g ∈ m ∨ g ∈ files := by
  intro files
  induction files with
  | nil => intro m h; exact Or.inl h
  | cons f rest ih =>
      intro m h
      rcases ih (insertSnap m f) h with h1 | h1
      · rcases mem_insertSnap h1 with h2 | h2
        · exact Or.inl h2
        · exact Or.inr (h2 ▸ List.mem_cons_self f rest)
      · exact Or.inr (List.mem_cons_of_mem f h1)

/-- Every entry of the built path map is one of the input snapshots. -/
theorem mem_buildMap {files : List FileSnapshot} {g : FileSnapshot}
    (h : g ∈ buildMap files) : g ∈ files := by
  rcases mem_buildMap_aux files [] h with h1 | h1
  · cases h1
  · exact h1

/-- The built map holds a path iff some input snapshot has that path. -/
theorem path_mem_buildMap_aux {p : String} :
    ∀ (files m : List FileSnapshot),
      (p ∈ (files.foldl insertSnap m).map (fun g => g.file_path)) ↔
        p ∈ m.map (fun g => g.file_path) ∨ p ∈ files.map (fun g => g.file_path) := by
  intro files
  induction files with
  | nil => intro m; simp
  | cons f rest ih =>
      intro m
      simp only [List.foldl_cons, ih (insertSnap m f), path_mem_insertSnap,
        List.map_cons, List.mem_cons]
      tauto

/-- The built map holds a path iff some input snapshot has that path. -/
theorem path_mem_buildMap {files : List FileSnapshot} {p : String} :
    (p ∈ (buildMap files).map (fun g => g.file_path)) ↔
      p ∈ files.map (fun g => g.file_path) := by
  simpa using path_mem_buildMap_aux files []

/-- The built map always has pairwise distinct paths (`HashMap` keys are
unique). -/
theorem pathsNodup_buildMap (files : List FileSnapshot) :
    pathsNodup (buildMap files) := by
  have : ∀ (fs m : List FileSnapshot), pathsNodup m →
      pathsNodup (fs.foldl insertSnap m) := by
    intro fs
    induction fs with
    | nil => intro m h; exact h
    | cons f rest ih => intro m h; exact ih (insertSnap m f) (pathsNodup_insertSnap h)
  exact this files [] (by simp [pathsNodup])

/-- Building the map over snapshots with pairwise distinct paths keeps the
list unchanged. -/
theorem buildMap_eq_of_nodup {files : List FileSnapshot} (h : pathsNodup files) :
    buildMap files = files := by
  have key : ∀ (fs m : List FileSnapshot),
      (m.map (fun g => g.file_path) ++ fs.map (fun g => g.file_path)).Nodup →
        fs.foldl insertSnap m = m ++ fs := by
    intro fs
    induction fs with
    | nil => intro m _; simp
    | cons f rest ih =>
        intro m hnd
        have hnf : f.file_path ∉ m.map (fun g => g.file_path) := by
          intro hc
          rw [List.nodup_append] at hnd
          exact hnd.2.2 hc (by simp)
        have hins : insertSnap m f = m ++ [f] := by
          unfold insertSnap
          rw [if_neg]
          intro hc
          rcases List.any_eq_true.mp hc with ⟨x, hx, hxp⟩
          exact hnf (List.mem_map.mpr ⟨x, hx, by simpa using hxp⟩)
        have hrearr :
            ((m ++ [f]).map (fun g => g.file_path) ++
              rest.map (fun g => g.file_path)).Nodup := by
          rw [List.map_append]
          simpa [List.append_assoc] using hnd
        simp only [List.foldl_cons, hins, ih (m ++ [f]) hrearr, List.append_assoc]
        rfl
  simpa using key files [] (by simpa [pathsNodup] using h)

/-- A `none` result of the map lookup means no entry has the path. -/
theorem findSnap_eq_none {m : List FileSnapshot} {p : String} :
    findSnap m p = none ↔ ∀ g ∈ m, g.file_path ≠ p := by
  unfold findSnap
  rw [List.find?_eq_none]
  constructor
  · intro h g hg hc; exact h g hg (by simpa using hc)
  · intro h g hg hc; exact h g hg (by simpa using hc)

/-- A `some` result of the map lookup is an entry of the map with that path. -/
theorem findSnap_some {m : List FileSnapshot} {p : String} {g : FileSnapshot}
    (h : findSnap m p = some g) : g ∈ m ∧ g.file_path = p := by
  refine ⟨List.mem_of_find?_eq_some h, ?_⟩
  have := List.find?_some h
  simpa using this

/-- Under distinct paths, the lookup of a member's path returns that member. -/
theorem findSnap_of_mem_nodup {m : List FileSnapshot} {t : FileSnapshot} {p : String}
    (hnd : pathsNodup m) (ht : t ∈ m) (hp : t.file_path = p) :
    findSnap m p = some t := by
  cases hfind : findSnap m p with
  | none =>
      exact absurd hp (findSnap_eq_none.mp hfind t ht)
  | some g =>
      rcases findSnap_some hfind with ⟨hg, hgp⟩
      have hnd' : (m.map (fun f => f.file_path)).Nodup := hnd
      have hgt : g = t :=
        List.inj_on_of_nodup_map hnd' hg ht
          (show g.file_path = t.file_path by rw [hgp, hp])
      rw [hgt]

/-- Membership in `modified_files`: exactly the paths held in both maps with
differing hashes, reported with the to-side line count as additions and the
from-side line count as deletions and no textual patch. -/
theorem mem_modified_iff {fromCk toCk : Checkpoint} {ff tf : List FileSnapshot}
    {fid tid : String} {d : FileDiff} :
    d ∈ (computeCheckpointDiff fromCk toCk ff tf fid tid).modified_files ↔
      ∃ f ∈ buildMap ff, ∃ t, findSnap (buildMap tf) f.file_path = some t ∧
        f.hash ≠ t.hash ∧
        d = { path := f.file_path, additions := linesCount t.content,
              deletions := linesCount f.content, diff_content := none } := by
  simp only [computeCheckpointDiff, List.mem_filterMap]
  constructor
  · rintro ⟨f, hf, hout⟩
    cases hfind : findSnap (buildMap tf) f.file_path with
    | none =>
        simp only [hfind] at hout
        exact Option.noConfusion hout
    | some t =>
        simp only [hfind] at hout
        by_cases hh : f.hash = t.hash
        · rw [if_neg (by simp [hh])] at hout
          exact Option.noConfusion hout
        · rw [if_pos hh] at hout
          exact ⟨f, hf, t, hfind, hh, (Option.some.inj hout).symm⟩
  · rintro ⟨f, hf, t, hfind, hh, hd⟩
    refine ⟨f, hf, ?_⟩
    simp only [hfind]
    rw [if_pos hh, hd]

/-- Membership in `deleted_files`: exactly the paths held in the from map but
absent from the to map. -/
theorem mem_deleted_iff {fromCk toCk : Checkpoint} {ff tf : List FileSnapshot}
    {fid tid : String} {p : String} :
    p ∈ (computeCheckpointDiff fromCk toCk ff tf fid tid).deleted_files ↔
      ∃ f ∈ buildMap ff, findSnap (buildMap tf) f.file_path = none ∧
        p = f.file_path := by
  simp only [computeCheckpointDiff, List.mem_filterMap]
  constructor
  · rintro ⟨f, hf, hout⟩
    cases hfind : findSnap (buildMap tf) f.file_path with
    | none =>
        simp only [hfind] at hout
        exact ⟨f, hf, hfind, (Option.some.inj hout).symm⟩
    | some t =>
        simp only [hfind] at hout
        exact Option.noConfusion hout
  · rintro ⟨f, hf, hfind, hp⟩
    refine ⟨f, hf, ?_⟩
    simp only [hfind, hp]

/-- Membership in `added_files`: exactly the paths held in the to map but
absent from the from map. -/
theorem mem_added_iff {fromCk toCk : Checkpoint} {ff tf : List FileSnapshot}
    {fid tid : String} {p : String} :
    p ∈ (computeCheckpointDiff fromCk toCk ff tf fid tid).added_files ↔
      ∃ t ∈ buildMap tf, findSnap (buildMap ff) t.file_path = none ∧
        p = t.file_path := by
  simp only [computeCheckpointDiff, List.mem_filterMap]
  constructor
  · rintro ⟨t, ht, hout⟩
    cases hfind : findSnap (buildMap ff) t.file_path with
    | none =>
        simp only [hfind] at hout
        exact ⟨t, ht, hfind, (Option.some.inj hout).symm⟩
    | some f =>
        simp only [hfind] at hout
        exact Option.noConfusion hout
  · rintro ⟨t, ht, hfind, hp⟩
    refine ⟨t, ht, ?_⟩
    simp only [hfind, hp]

/-! ### C5 -/

/-- C5: for every path present in both checkpoints with differing hashes, the
`FileDiff` entry reports additions equal to the total line count of the
to-side content and deletions equal to the total line count of the from-side
content, and no textual patch is ever produced (`diff_content` is `None` in
every modified entry). -/
theorem modified_counts (fromCk toCk : Checkpoint) (ff tf : List FileSnapshot)
    (fid tid : String) :
    (∀ d ∈ (computeCheckpointDiff fromCk toCk ff tf fid tid).modified_files,
      d.diff_content = none) ∧
    (∀ (p : String) (f t : FileSnapshot), pathsNodup ff → pathsNodup tf →
      f ∈ ff → t ∈ tf → f.file_path = p → t.file_path = p → f.hash ≠ t.hash →
      ({ path := p, additions := linesCount t.content,
         deletions := linesCount f.content, diff_content := none } : FileDiff) ∈
        (computeCheckpointDiff fromCk toCk ff tf fid tid).modified_files) := by
  constructor
  · intro d hd
    rcases mem_modified_iff.mp hd with ⟨f, _, t, _, _, hd'⟩
    rw [hd']
  · intro p f t hndf hndt hf ht hfp htp hh
    refine mem_modified_iff.mpr ⟨f, ?_, t, ?_, hh, ?_⟩
    · rw [buildMap_eq_of_nodup hndf]; exact hf
    · rw [buildMap_eq_of_nodup hndt]
      exact findSnap_of_mem_nodup hndt ht (by rw [htp, hfp])
    · rw [hfp]

/-- From-side fixture for the modified-counts witness: two lines of content. -/
def filesC5A : List FileSnapshot :=
  [ { file_path := "x", content := "1\n2", hash := "e1", size := 3 } ]

/-- To-side fixture for the modified-counts witness: three lines of content. -/
def filesC5B : List FileSnapshot :=
  [ { file_path := "x", content := "1\n2\n3", hash := "e2", size := 5 } ]

/-- Witness for C5: the single modified file is reported with 3 additions
(line count of the to-side content), 2 deletions (line count of the from-side
content), and no textual patch. -/
theorem modified_counts_witness :
    ({ path := "x", additions := linesCount "1\n2\n3",
       deletions := linesCount "1\n2", diff_content := none } : FileDiff) ∈
      (computeCheckpointDiff ckC1A ckC1B filesC5A filesC5B "a" "b").modified_files :=
  (modified_counts ckC1A ckC1B filesC5A filesC5B "a" "b").2 "x"
    { file_path := "x", content := "1\n2", hash := "e1", size := 3 }
    { file_path := "x", content := "1\n2\n3", hash := "e2", size := 5 }
    (by decide) (by decide) (by decide) (by decide) rfl rfl (by decide)

/-! ### C9 -/

/-- C9: the three lists of a produced `CheckpointDiff` are pairwise disjoint
and classify by sole occurrence — a modified path occurs in both checkpoints
with differing hashes, a deleted path occurs solely in the from-checkpoint,
an added path solely in the to-checkpoint, and (under the unique-path
invariant) a path present in both with equal hashes appears in none. -/
theorem diff_lists_classification (fromCk toCk : Checkpoint)
    (ff tf : List FileSnapshot) (fid tid : String) :
    (∀ d ∈ (computeCheckpointDiff fromCk toCk ff tf fid tid).modified_files,
      d.path ∉ (computeCheckpointDiff fromCk toCk ff tf fid tid).added_files ∧
      d.path ∉ (computeCheckpointDiff fromCk toCk ff tf fid tid).deleted_files) ∧
    (∀ p ∈ (computeCheckpointDiff fromCk toCk ff tf fid tid).added_files,
      p ∉ (computeCheckpointDiff fromCk toCk ff tf fid tid).deleted_files) ∧
    (∀ d ∈ (computeCheckpointDiff fromCk toCk ff tf fid tid).modified_files,
      ∃ f ∈ ff, ∃ t ∈ tf, f.file_path = d.path ∧ t.file_path = d.path ∧
        f.hash ≠ t.hash) ∧
    (∀ p ∈ (computeCheckpointDiff fromCk toCk ff tf fid tid).deleted_files,
      (∃ f ∈ ff, f.file_path = p) ∧ ∀ t ∈ tf, t.file_path ≠ p) ∧
    (∀ p ∈ (computeCheckpointDiff fromCk toCk ff tf fid tid).added_files,
      (∃ t ∈ tf, t.file_path = p) ∧ ∀ f ∈ ff, f.file_path ≠ p) ∧
    (pathsNodup ff → pathsNodup tf →
      ∀ f ∈ ff, ∀ t ∈ tf, f.file_path = t.file_path → f.hash = t.hash →
        (∀ d ∈ (computeCheckpointDiff fromCk toCk ff tf fid tid).modified_files,
          d.path ≠ f.file_path) ∧
        f.file_path ∉ (computeCheckpointDiff fromCk toCk ff tf fid tid).added_files ∧
        f.file_path ∉ (computeCheckpointDiff fromCk toCk ff tf fid tid).deleted_files) := by
  refine ⟨?_, ?_, ?_, ?_, ?_, ?_⟩
  · -- modified is disjoint from added and deleted
    intro d hd
    rcases mem_modified_iff.mp hd with ⟨f, hf, t, hfind, hh, hd'⟩
    constructor
    · intro hc
      rcases mem_added_iff.mp hc with ⟨t', ht', hnone, hp⟩
      have : f.file_path = t'.file_path := by rw [hd'] at hp; exact hp
      exact findSnap_eq_none.mp hnone f hf this
    · intro hc
      rcases mem_deleted_iff.mp hc with ⟨f', hf', hnone, hp⟩
      have hpp : f'.file_path = f.file_path := by rw [hd'] at hp; exact hp.symm
      rw [hpp] at hnone
      rw [hnone] at hfind
      exact Option.noConfusion hfind
  · -- added is disjoint from deleted
    intro p hp
    rcases mem_added_iff.mp hp with ⟨t, ht, hnone, hpt⟩
    intro hc
    rcases mem_deleted_iff.mp hc with ⟨f, hf, _, hpf⟩
    exact findSnap_eq_none.mp hnone f hf (by rw [← hpf, ← hpt])
  · -- modified paths occur in both inputs with differing hashes
    intro d hd
    rcases mem_modified_iff.mp hd with ⟨f, hf, t, hfind, hh, hd'⟩
    rcases findSnap_some hfind with ⟨htm, htp⟩
    exact ⟨f, mem_buildMap hf, t, mem_buildMap htm,
      by rw [hd'], by rw [htp, hd'], hh⟩
  · -- deleted paths occur solely in the from-checkpoint
    intro p hp
    rcases mem_deleted_iff.mp hp with ⟨f, hf, hnone, hpf⟩
    refine ⟨⟨f, mem_buildMap hf, hpf.symm⟩, ?_⟩
    intro t ht hc
    have hmem : p ∈ tf.map (fun g => g.file_path) := List.mem_map.mpr ⟨t, ht, hc⟩
    rcases List.mem_map.mp (path_mem_buildMap.mpr hmem) with ⟨g, hg, hgp⟩
    exact findSnap_eq_none.mp hnone g hg (by rw [hgp, hpf])
  · -- added paths occur solely in the to-checkpoint
    intro p hp
    rcases mem_added_iff.mp hp with ⟨t, ht, hnone, hpt⟩
    refine ⟨⟨t, mem_buildMap ht, hpt.symm⟩, ?_⟩
    intro f hf hc
    have hmem : p ∈ ff.map (fun g => g.file_path) := List.mem_map.mpr ⟨f, hf, hc⟩
    rcases List.mem_map.mp (path_mem_buildMap.mpr hmem) with ⟨g, hg, hgp⟩
    exact findSnap_eq_none.mp hnone g hg (by rw [hgp, hpt])
  · -- equal hashes on both sides put the path in no list
    intro hndf hndt f hf t ht hpath hhash
    have hbf := buildMap_eq_of_nodup hndf
    have hbt := buildMap_eq_of_nodup hndt
    refine ⟨?_, ?_, ?_⟩
    · intro d hd hc
      rcases mem_modified_iff.mp hd with ⟨f', hf', t', hfind, hh, hd'⟩
      rw [hbf] at hf'
      have hf'p : f'.file_path = f.file_path := by rw [hd'] at hc; exact hc
      have hndf' : (ff.map (fun g => g.file_path)).Nodup := hndf
      have hff : f' = f := List.inj_on_of_nodup_map hndf' hf' hf hf'p
      rw [hbt] at hfind
      have hfind' : findSnap tf f'.file_path = some t := by
        rw [hf'p, hpath]
        exact findSnap_of_mem_nodup hndt ht rfl
      rw [hfind'] at hfind
      have htt : t' = t := (Option.some.inj hfind).symm
      rw [hff, htt] at hh
      exact hh hhash
    · intro hc
      rcases mem_added_iff.mp hc with ⟨t', ht', hnone, hp⟩
      rw [hbf] at hnone
      exact findSnap_eq_none.mp hnone f hf (by rw [← hp])
    · intro hc
      rcases mem_deleted_iff.mp hc with ⟨f', hf', hnone, hp⟩
      rw [hbt] at hnone
      exact findSnap_eq_none.mp hnone t ht (by rw [← hpath, ← hp])

/-- Witness for C9: at the concrete example sets, the path x (present in both
checkpoints with equal hashes) is excluded from all three lists by the
classification theorem. -/
theorem diff_lists_classification_witness :
    (∀ d ∈ (computeCheckpointDiff ckC1A ckC1B filesC1A filesC1B "a" "b").modified_files,
      d.path ≠ "x") ∧
    "x" ∉ (computeCheckpointDiff ckC1A ckC1B filesC1A filesC1B "a" "b").added_files ∧
    "x" ∉ (computeCheckpointDiff ckC1A ckC1B filesC1A filesC1B "a" "b").deleted_files :=
  (diff_lists_classification ckC1A ckC1B filesC1A filesC1B "a" "b").2.2.2.2.2
    (by decide) (by decide)
    { file_path := "x", content := "1", hash := "d1", size := 1 } (by decide)
    { file_path := "x", content := "1", hash := "d1", size := 1 } (by decide)
    rfl rfl

/-! ### State-shape lemmas for the command handlers -/

instance {ε α : Type} [DecidableEq ε] [DecidableEq α] : DecidableEq (Except ε α) :=
  fun x y =>
    match x, y with
    | Except.ok a, Except.ok b =>
        if h : a = b then isTrue (by rw [h])
        else isFalse (by intro hc; cases hc; exact h rfl)
    | Except.error a, Except.error b =>
        if h : a = b then isTrue (by rw [h])
        else isFalse (by intro hc; cases hc; exact h rfl)
    | Except.ok _, Except.error _ => isFalse (by intro hc; cases hc)
    | Except.error _, Except.ok _ => isFalse (by intro hc; cases hc)

/-- Obtaining a manager touches only the registry: storage and the session
files are unchanged. -/
theorem get_or_create_manager_preserves (st : AppState) (sid pid ppath : String) :
    (get_or_create_manager st sid pid ppath).2.storage = st.storage ∧
    (get_or_create_manager st sid pid ppath).2.sessionFiles = st.sessionFiles := by
  unfold get_or_create_manager
  cases findManager st sid <;> simp

/-- Advancing a Timeline pointer touches only the registry. -/
theorem setTimelinePointer_preserves (st : AppState) (sid : String) (cid : Option String) :
    (setTimelinePointer st sid cid).storage = st.storage ∧
    (setTimelinePointer st sid cid).sessionFiles = st.sessionFiles :=
  ⟨rfl, rfl⟩

/-- Reading a just-written session log returns the written content. -/
theorem readSessionFile_writeSessionFile (st : AppState) (pid sid content : String) :
    readSessionFile (writeSessionFile st pid sid content) pid sid = some content := by
  simp [readSessionFile, writeSessionFile]

/-- After obtaining a manager for a session id, the registry holds one. -/
theorem findManager_get_or_create (st : AppState) (sid pid ppath : String) :
    (findManager (get_or_create_manager st sid pid ppath).2 sid).isSome = true := by
  unfold get_or_create_manager
  cases hf : findManager st sid with
  | some m => simp [hf]
  | none =>
      have hnone : st.registry.find? (fun e => e.1 == sid) = none := by
        unfold findManager at hf
        exact Option.map_eq_none'.mp hf
      simp [findManager, List.find?_append, hnone]

/-- A key-preserving rewrite of the registry preserves which session ids are
registered. -/
theorem find_key_map_preserve (l : List (String × Manager))
    (g : String × Manager → String × Manager) (hg : ∀ e, (g e).1 = e.1)
    (sid : String) :
    ((l.map g).find? (fun e => e.1 == sid)).isSome =
      (l.find? (fun e => e.1 == sid)).isSome := by
  induction l with
  | nil => rfl
  | cons e rest ih =>
      simp only [List.map_cons, List.find?]
      rw [hg e]
      cases heq : (e.1 == sid) with
      | false => exact ih
      | true => rfl

/-- Advancing a Timeline pointer keeps every registered session registered. -/
theorem findManager_setTimelinePointer (st : AppState) (sid : String)
    (cid : Option String) (sid' : String) :
    (findManager (setTimelinePointer st sid cid) sid').isSome =
      (findManager st sid').isSome := by
  unfold findManager setTimelinePointer
  simp only [Option.isSome_map']
  exact find_key_map_preserve st.registry _ (fun e => by
    by_cases h : (e.1 == sid) = true
    · rw [if_pos h]
    · rw [if_neg h]) sid'

/-- The record found by `findStoredCheckpoint` is a stored checkpoint with
exactly the requested project, session and checkpoint ids. -/
theorem findStoredCheckpoint_some {s : CheckpointStorage} {pid sid cid : String}
    {stored : StoredCheckpoint}
    (h : findStoredCheckpoint s pid sid cid = some stored) :
    stored ∈ s.checkpoints ∧ stored.ckpt.project_id = pid ∧
    stored.ckpt.session_id = sid ∧ stored.ckpt.id = cid := by
  unfold findStoredCheckpoint at h
  refine ⟨List.mem_of_find?_eq_some h, ?_⟩
  have hp := List.find?_some h
  simp only [Bool.and_eq_true, beq_iff_eq] at hp
  exact ⟨hp.1.1, hp.1.2, hp.2⟩

/-! ### C3 -/

/-- C3: after every successful `restore_checkpoint` command, the session's
visible conversation log under the project directory contains exactly the
transcript bytes stored with the restored checkpoint, and the result carries
the restored Checkpoint record. -/
theorem restore_rewrites_session_log (st : AppState) (cid sid pid ppath : String)
    (res : CheckpointResult) (st' : AppState)
    (h : restore_checkpoint_cmd st cid sid pid ppath = Except.ok (res, st')) :
    ∃ stored : StoredCheckpoint,
      stored ∈ st.storage.checkpoints ∧ stored.ckpt.id = cid ∧
      stored.ckpt.session_id = sid ∧ res.checkpoint = stored.ckpt ∧
      readSessionFile st' stored.ckpt.project_id sid = some stored.transcript := by
  simp only [restore_checkpoint_cmd] at h
  split at h
  next e heq => exact Except.noConfusion h
  next result st2 heq =>
    split at h
    next e hload => exact Except.noConfusion h
    next ck files messages hload =>
      simp only [mgrRestoreCheckpoint] at heq
      split at heq
      next hmgr => exact Except.noConfusion heq
      next mgr hmgr =>
        split at heq
        next hfound => exact Except.noConfusion heq
        next stored hfound =>
          have hgp := (get_or_create_manager_preserves st sid pid ppath).1
          rw [hgp] at hfound
          obtain ⟨hmem, hpidm, hsidm, hcidm⟩ := findStoredCheckpoint_some hfound
          injection heq with h2
          injection h2 with h2a h2b
          injection h with h1
          injection h1 with h1a h1b
          refine ⟨stored, hmem, hcidm, hsidm, ?_, ?_⟩
          · rw [← h1a, ← h2a]
          · -- identify messages with the stored transcript
            have hfound2 : findStoredCheckpoint st.storage stored.ckpt.project_id sid cid =
                some stored := by
              rw [hpidm]; exact hfound
            have hmsg : messages = stored.transcript := by
              rw [← h2b] at hload
              rw [← h2a] at hload
              simp only [setTimelinePointer, load_checkpoint] at hload
              rw [hgp] at hload
              rw [hfound2] at hload
              injection hload with h3
              injection h3 with h3a h3bc
              injection h3bc with h3b h3c
              exact h3c.symm
            have hrp : result.checkpoint.project_id = stored.ckpt.project_id := by
              rw [← h2a]
            rw [← h1b, hmsg, hrp]
            exact readSessionFile_writeSessionFile st2 stored.ckpt.project_id sid stored.transcript

/-- Checkpoint fixture for the restore witness. -/
def ckC3 : Checkpoint :=
  { id := "c1", session_id := "s1", project_id := "p1", parent_id := none,
    created_at := 0, description := none, message_index := 0,
    metadata := { total_tokens := 7, file_count := 1 } }

/-- Stored checkpoint fixture: transcript "t0\n". -/
def storedC3 : StoredCheckpoint :=
  { ckpt := ckC3,
    files := [ { file_path := "f.txt", content := "hello\n", hash := "hh", size := 6 } ],
    transcript := "t0\n" }

/-- Process-state fixture holding one checkpoint and a longer live log. -/
def stateC3 : AppState :=
  { registry := [], sessionFiles := [(("p1", "s1"), "t0\nt1\n")], workingTree := [],
    storage := { checkpoints := [storedC3], blobs := [("hh", "hello\n")] },
    nextId := 0, clock := 5 }

/-- The output of the restore command on the fixture state. -/
def restoreOutC3 : CheckpointResult × AppState :=
  match restore_checkpoint_cmd stateC3 "c1" "s1" "p1" "/pp" with
  | Except.ok out => out
  | Except.error _ => ({ checkpoint := ckC3, files_processed := 0, warnings := [] }, stateC3)

/-- Witness for C3: restoring checkpoint c1 on the fixture state rewrites the
session log from "t0\nt1\n" back to the stored transcript "t0\n". -/
theorem restore_rewrites_session_log_witness :
    ∃ stored : StoredCheckpoint,
      stored ∈ stateC3.storage.checkpoints ∧ stored.ckpt.id = "c1" ∧
      stored.ckpt.session_id = "s1" ∧ restoreOutC3.1.checkpoint = stored.ckpt ∧
      readSessionFile restoreOutC3.2 stored.ckpt.project_id "s1" = some stored.transcript :=
  restore_rewrites_session_log stateC3 "c1" "s1" "p1" "/pp" restoreOutC3.1 restoreOutC3.2
    (by decide)

/-! ### C2 -/

/-- Shape of a successful manager-level fork: the session files are
untouched, the created checkpoint is parented at the forked checkpoint under
the new session id, and registration is preserved. -/
theorem mgrFork_shape (st2 : AppState) (nsid cid : String) (description : Option String)
    (res : CheckpointResult) (st' : AppState)
    (h : mgrForkFromCheckpoint st2 nsid cid description = Except.ok (res, st')) :
    st'.sessionFiles = st2.sessionFiles ∧ res.checkpoint.parent_id = some cid ∧
    res.checkpoint.session_id = nsid ∧
    (findManager st' nsid).isSome = (findManager st2 nsid).isSome := by
  simp only [mgrForkFromCheckpoint] at h
  split at h
  next hmgr => exact Except.noConfusion h
  next mgr hmgr =>
    split at h
    next hfound => exact Except.noConfusion h
    next stored hfound =>
      injection h with h1
      injection h1 with h1a h1b
      refine ⟨?_, ?_, ?_, ?_⟩
      · rw [← h1b]; rfl
      · rw [← h1a]
      · rw [← h1a]
      · rw [← h1b, findManager_setTimelinePointer]
        rfl

/-- C2 (amended): a successful `fork_from_checkpoint` command copies the
source session's entire current conversation log — not the transcript
truncated at the chosen checkpoint — into the new session id, creates a new
Checkpoint whose parent is the chosen checkpoint id under the new session id,
and leaves a Manager registered for the new session id. -/
theorem fork_copies_full_transcript (st : AppState) (cid sid pid ppath nsid : String)
    (description : Option String) (res : CheckpointResult) (st' : AppState)
    (h : fork_from_checkpoint_cmd st cid sid pid ppath nsid description =
      Except.ok (res, st')) :
    (∀ content, readSessionFile st pid sid = some content →
      readSessionFile st' pid nsid = some content) ∧
    res.checkpoint.parent_id = some cid ∧
    res.checkpoint.session_id = nsid ∧
    (findManager st' nsid).isSome = true := by
  simp only [fork_from_checkpoint_cmd] at h
  split at h
  next e hfork => exact Except.noConfusion h
  next r hfork =>
    have hr : r = (res, st') := Except.ok.inj h
    rw [hr] at hfork
    obtain ⟨hsf, hpar, hsid2, hisome⟩ := mgrFork_shape _ _ _ _ _ _ hfork
    refine ⟨?_, hpar, hsid2, ?_⟩
    · intro content hc
      have hfiles : st'.sessionFiles = (writeSessionFile st pid nsid content).sessionFiles := by
        rw [hsf, (get_or_create_manager_preserves _ _ _ _).2, hc]
      have hrw := readSessionFile_writeSessionFile st pid nsid content
      simp only [readSessionFile] at hrw ⊢
      rw [hfiles]
      exact hrw
    · rw [hisome, findManager_get_or_create]

/-- Checkpoint fixture for the fork claims: captured after the first message. -/
def ckC2 : Checkpoint :=
  { id := "c1", session_id := "s1", project_id := "p1", parent_id := none,
    created_at := 0, description := none, message_index := 0,
    metadata := { total_tokens := 0, file_count := 0 } }

/-- Stored checkpoint fixture: its transcript is only the first line. -/
def storedC2 : StoredCheckpoint :=
  { ckpt := ckC2, files := [], transcript := "m0\n" }

/-- Process-state fixture: the live session log has grown to three lines
beyond the checkpointed transcript. -/
def stateC2 : AppState :=
  { registry := [], sessionFiles := [(("p1", "s1"), "m0\nm1\nm2\n")],
    workingTree := [], storage := { checkpoints := [storedC2], blobs := [] },
    nextId := 0, clock := 1 }

/-- The output of the fork command on the fixture state. -/
def forkOutC2 : CheckpointResult × AppState :=
  match fork_from_checkpoint_cmd stateC2 "c1" "s1" "p1" "/pp" "s2" none with
  | Except.ok out => out
  | Except.error _ => ({ checkpoint := ckC2, files_processed := 0, warnings := [] }, stateC2)

/-- Counterexample to C2 as stated: forking session s1 (live log
"m0\nm1\nm2\n") at checkpoint c1 (stored transcript "m0\n") succeeds, yet
the log copied into new session s2 is the full three-line live log, not the
transcript up to the chosen checkpoint. -/
theorem fork_transcript_counterexample :
    fork_from_checkpoint_cmd stateC2 "c1" "s1" "p1" "/pp" "s2" none =
      Except.ok (forkOutC2.1, forkOutC2.2) ∧
    forkOutC2.1.checkpoint.parent_id = some "c1" ∧
    storedC2.transcript = "m0\n" ∧
    readSessionFile forkOutC2.2 "p1" "s2" = some "m0\nm1\nm2\n" ∧
    readSessionFile forkOutC2.2 "p1" "s2" ≠ some storedC2.transcript := by
  refine ⟨by decide, by decide, by decide, by decide, by decide⟩

/-- Witness for the amended C2 at the fork fixture state. -/
theorem fork_copies_full_transcript_witness :
    (∀ content, readSessionFile stateC2 "p1" "s1" = some content →
      readSessionFile forkOutC2.2 "p1" "s2" = some content) ∧
    forkOutC2.1.checkpoint.parent_id = some "c1" ∧
    forkOutC2.1.checkpoint.session_id = "s2" ∧
    (findManager forkOutC2.2 "s2").isSome = true :=
  fork_copies_full_transcript stateC2 "c1" "s1" "p1" "/pp" "s2" none
    forkOutC2.1 forkOutC2.2 (by decide)

/-! ### C7 -/

/-- Removing the records whose ids sit in the first `r` positions of a list
with pairwise distinct ids leaves exactly the suffix after position `r`. -/
theorem filter_not_take_ids :
    ∀ (l : List StoredCheckpoint) (r : Nat),
      (l.map (fun c => c.ckpt.id)).Nodup →
      l.filter (fun c => !(((l.take r).map (fun c => c.ckpt.id)).contains c.ckpt.id)) =
        l.drop r := by
  intro l
  induction l with
  | nil => intro r _; simp
  | cons a tl ih =>
      intro r hnd
      cases r with
      | zero => simp
      | succ r =>
          have hnd' : (tl.map (fun c => c.ckpt.id)).Nodup := by
            simp only [List.map_cons, List.nodup_cons] at hnd
            exact hnd.2
          have hna : a.ckpt.id ∉ tl.map (fun c => c.ckpt.id) := by
            simp only [List.map_cons, List.nodup_cons] at hnd
            exact hnd.1
          simp only [List.take_succ_cons, List.drop_succ_cons, List.map_cons]
          rw [List.filter_cons_of_neg (by simp)]
          rw [List.filter_congr (q := fun c =>
            !(((tl.take r).map (fun c => c.ckpt.id)).contains c.ckpt.id)) ?_]
          · exact ih r hnd'
          · intro c hc
            have : (c.ckpt.id == a.ckpt.id) = false := by
              rw [beq_eq_false_iff_ne]
              intro he
              exact hna (he ▸ List.mem_map.mpr ⟨c, hc, rfl⟩)
            simp [List.contains_cons, this]
            intro _
            exact beq_eq_false_iff_ne.mp this

/-- Unfolding step of `find?` at a matching head. -/
theorem find?_cons_true {α : Type} (p : α → Bool) (a : α) (l : List α)
    (h : p a = true) : List.find? p (a :: l) = some a := by
  simp only [List.find?, h]

/-- Unfolding step of `find?` at a non-matching head. -/
theorem find?_cons_false {α : Type} (p : α → Bool) (a : α) (l : List α)
    (h : p a = false) : List.find? p (a :: l) = List.find? p l := by
  simp only [List.find?, h]

/-- Filtering with a predicate that keeps every entry of a given key does not
change the result of looking that key up. -/
theorem find?_filter_key {l : List (String × String)} {p : String × String → Bool}
    {h : String} (hp : ∀ b ∈ l, b.1 = h → p b = true) :
    (l.filter p).find? (fun b => b.1 == h) = l.find? (fun b => b.1 == h) := by
  induction l with
  | nil => rfl
  | cons b tl ih =>
      have ih' := ih (fun x hx => hp x (List.mem_cons_of_mem b hx))
      by_cases hpb : p b = true
      · rw [List.filter_cons_of_pos hpb]
        cases hb : (b.1 == h) with
        | true =>
            rw [find?_cons_true (fun b => b.1 == h) b (List.filter p tl) hb,
              find?_cons_true (fun b => b.1 == h) b tl hb]
        | false =>
            rw [find?_cons_false (fun b => b.1 == h) b (List.filter p tl) hb,
              find?_cons_false (fun b => b.1 == h) b tl hb]
            exact ih'
      · have hb : (b.1 == h) = false := by
          cases hb2 : (b.1 == h) with
          | true => exact absurd (hp b (List.mem_cons_self b tl) (by simpa using hb2)) hpb
          | false => rfl
        rw [List.filter_cons_of_neg (by simpa using hpb),
          find?_cons_false (fun b => b.1 == h) b tl hb]
        exact ih'

/-- C7: `cleanup_old_checkpoints(project_id, session_id, keep_count=k)` on a
session holding T checkpoints returns T - min(k,T) as the removed count,
retains exactly the min(k,T) most-recently-created checkpoints of the session
(the creation-order suffix, each removed checkpoint no newer than any
retained one), is a no-op returning 0 when k ≥ T, and never deletes a blob
still referenced by a retained checkpoint: every retained checkpoint's files
stay retrievable from the blob store. -/
theorem cleanup_retention (s : CheckpointStorage) (pid sid : String) (k : Nat)
    (hids : (s.checkpoints.map (fun c => c.ckpt.id)).Nodup)
    (hsorted : (sessionCheckpoints s pid sid).Pairwise
      (fun a b => a.ckpt.created_at ≤ b.ckpt.created_at)) :
    (cleanup_old_checkpoints s pid sid k).1 =
      (sessionCheckpoints s pid sid).length -
        min k (sessionCheckpoints s pid sid).length ∧
    sessionCheckpoints (cleanup_old_checkpoints s pid sid k).2 pid sid =
      (sessionCheckpoints s pid sid).drop
        ((sessionCheckpoints s pid sid).length -
          min k (sessionCheckpoints s pid sid).length) ∧
    (sessionCheckpoints (cleanup_old_checkpoints s pid sid k).2 pid sid).length =
      min k (sessionCheckpoints s pid sid).length ∧
    ((sessionCheckpoints s pid sid).length ≤ k →
      cleanup_old_checkpoints s pid sid k = (0, s)) ∧
    (∀ c ∈ (sessionCheckpoints s pid sid).take
        ((sessionCheckpoints s pid sid).length -
          min k (sessionCheckpoints s pid sid).length),
      ∀ d ∈ sessionCheckpoints (cleanup_old_checkpoints s pid sid k).2 pid sid,
        c.ckpt.created_at ≤ d.ckpt.created_at) ∧
    (∀ c ∈ (cleanup_old_checkpoints s pid sid k).2.checkpoints, ∀ f ∈ c.files,
      getBlob (cleanup_old_checkpoints s pid sid k).2 f.hash = getBlob s f.hash) := by
  by_cases hk : (sessionCheckpoints s pid sid).length ≤ k
  · have hcl : cleanup_old_checkpoints s pid sid k = (0, s) := by
      simp only [cleanup_old_checkpoints]
      rw [if_pos hk]
    have hmin : min k (sessionCheckpoints s pid sid).length =
        (sessionCheckpoints s pid sid).length := Nat.min_eq_right hk
    rw [hcl, hmin]
    refine ⟨by simp, by simp, by simp, fun _ => rfl, ?_, ?_⟩
    · intro c hc d hd
      simp at hc
    · intro c hc f hf
      rfl
  · have hklt : k < (sessionCheckpoints s pid sid).length := Nat.lt_of_not_le hk
    have hmin : min k (sessionCheckpoints s pid sid).length = k :=
      Nat.min_eq_left (Nat.le_of_lt hklt)
    have hsessnd : ((sessionCheckpoints s pid sid).map (fun c => c.ckpt.id)).Nodup :=
      List.Nodup.sublist
        (List.Sublist.map _ (List.filter_sublist s.checkpoints)) hids
    have hcl2 : (cleanup_old_checkpoints s pid sid k).2 =
        { checkpoints := s.checkpoints.filter (fun c =>
            !((((sessionCheckpoints s pid sid).take
                ((sessionCheckpoints s pid sid).length - k)).map
                  (fun c => c.ckpt.id)).contains c.ckpt.id))
          blobs := s.blobs.filter (fun b =>
            (s.checkpoints.filter (fun c =>
              !((((sessionCheckpoints s pid sid).take
                  ((sessionCheckpoints s pid sid).length - k)).map
                    (fun c => c.ckpt.id)).contains c.ckpt.id))).any
              (fun c => c.files.any (fun f => f.hash == b.1))) } := by
      simp only [cleanup_old_checkpoints]
      rw [if_neg hk]
    have hcl1 : (cleanup_old_checkpoints s pid sid k).1 =
        (sessionCheckpoints s pid sid).length - k := by
      simp only [cleanup_old_checkpoints]
      rw [if_neg hk]
    have h2 : sessionCheckpoints (cleanup_old_checkpoints s pid sid k).2 pid sid =
        (sessionCheckpoints s pid sid).drop
          ((sessionCheckpoints s pid sid).length - k) := by
      rw [hcl2]
      show ((s.checkpoints.filter (fun c =>
          !((((sessionCheckpoints s pid sid).take
              ((sessionCheckpoints s pid sid).length - k)).map
                (fun c => c.ckpt.id)).contains c.ckpt.id))).filter
            (fun c => c.ckpt.project_id == pid && c.ckpt.session_id == sid)) =
          (sessionCheckpoints s pid sid).drop
            ((sessionCheckpoints s pid sid).length - k)
      rw [List.filter_filter]
      have hcongr :
          s.checkpoints.filter (fun a =>
            (a.ckpt.project_id == pid && a.ckpt.session_id == sid) &&
              !((((sessionCheckpoints s pid sid).take
                  ((sessionCheckpoints s pid sid).length - k)).map
                    (fun c => c.ckpt.id)).contains a.ckpt.id)) =
          s.checkpoints.filter (fun a =>
            (!((((sessionCheckpoints s pid sid).take
                ((sessionCheckpoints s pid sid).length - k)).map
                  (fun c => c.ckpt.id)).contains a.ckpt.id)) &&
              (a.ckpt.project_id == pid && a.ckpt.session_id == sid)) :=
        List.filter_congr (fun x _ => Bool.and_comm _ _)
      rw [hcongr, ← List.filter_filter]
      exact filter_not_take_ids (sessionCheckpoints s pid sid)
        ((sessionCheckpoints s pid sid).length - k) hsessnd
    rw [hmin]
    refine ⟨by rw [hcl1], h2, ?_, ?_, ?_, ?_⟩
    · rw [h2]
      simp only [List.length_drop]
      omega
    · intro hge
      exact absurd hge hk
    · intro c hc d hd
      rw [h2] at hd
      have hsp : ((sessionCheckpoints s pid sid).take
            ((sessionCheckpoints s pid sid).length - k) ++
          (sessionCheckpoints s pid sid).drop
            ((sessionCheckpoints s pid sid).length - k)).Pairwise
          (fun a b => a.ckpt.created_at ≤ b.ckpt.created_at) := by
        rw [List.take_append_drop]
        exact hsorted
      exact (List.pairwise_append.mp hsp).2.2 c hc d hd
    · intro c hc f hf
      rw [hcl2] at hc
      rw [hcl2]
      simp only [getBlob]
      rw [find?_filter_key (fun b hb hbh => by
        refine List.any_eq_true.mpr ⟨c, by simpa using hc, ?_⟩
        refine List.any_eq_true.mpr ⟨f, hf, ?_⟩
        simp [hbh])]

/-- Cleanup witness fixture: three checkpoints of one session in creation
order, each referencing one blob. -/
def stateC7 : CheckpointStorage :=
  { checkpoints :=
      [ { ckpt := { id := "a1", session_id := "s1", project_id := "p1",
                    parent_id := none, created_at := 1, description := none,
                    message_index := 0,
                    metadata := { total_tokens := 1, file_count := 1 } },
          files := [ { file_path := "u", content := "x", hash := "h1", size := 1 } ],
          transcript := "t1" },
        { ckpt := { id := "a2", session_id := "s1", project_id := "p1",
                    parent_id := some "a1", created_at := 2, description := none,
                    message_index := 1,
                    metadata := { total_tokens := 2, file_count := 1 } },
          files := [ { file_path := "u", content := "y", hash := "h2", size := 1 } ],
          transcript := "t2" },
        { ckpt := { id := "a3", session_id := "s1", project_id := "p1",
                    parent_id := some "a2", created_at := 3, description := none,
                    message_index := 2,
                    metadata := { total_tokens := 3, file_count := 1 } },
          files := [ { file_path := "u", content := "z", hash := "h3", size := 1 } ],
          transcript := "t3" } ],
    blobs := [("h1", "x"), ("h2", "y"), ("h3", "z")] }

/-- Witness for C7: cleaning three checkpoints down to two removes exactly
the oldest and keeps both blobs of the retained ones retrievable. -/
theorem cleanup_retention_witness :
    (cleanup_old_checkpoints stateC7 "p1" "s1" 2).1 =
      (sessionCheckpoints stateC7 "p1" "s1").length -
        min 2 (sessionCheckpoints stateC7 "p1" "s1").length ∧
    sessionCheckpoints (cleanup_old_checkpoints stateC7 "p1" "s1" 2).2 "p1" "s1" =
      (sessionCheckpoints stateC7 "p1" "s1").drop
        ((sessionCheckpoints stateC7 "p1" "s1").length -
          min 2 (sessionCheckpoints stateC7 "p1" "s1").length) ∧
    (sessionCheckpoints (cleanup_old_checkpoints stateC7 "p1" "s1" 2).2 "p1" "s1").length =
      min 2 (sessionCheckpoints stateC7 "p1" "s1").length ∧
    ((sessionCheckpoints stateC7 "p1" "s1").length ≤ 2 →
      cleanup_old_checkpoints stateC7 "p1" "s1" 2 = (0, stateC7)) ∧
    (∀ c ∈ (sessionCheckpoints stateC7 "p1" "s1").take
        ((sessionCheckpoints stateC7 "p1" "s1").length -
          min 2 (sessionCheckpoints stateC7 "p1" "s1").length),
      ∀ d ∈ sessionCheckpoints (cleanup_old_checkpoints stateC7 "p1" "s1" 2).2 "p1" "s1",
        c.ckpt.created_at ≤ d.ckpt.created_at) ∧
    (∀ c ∈ (cleanup_old_checkpoints stateC7 "p1" "s1" 2).2.checkpoints, ∀ f ∈ c.files,
      getBlob (cleanup_old_checkpoints stateC7 "p1" "s1" 2).2 f.hash =
        getBlob stateC7 f.hash) :=
  cleanup_retention stateC7 "p1" "s1" 2 (by decide) (by decide)

end Claudia
